import Mathlib

/-!
Verification of the nonlinear reflection coefficient pipeline (`nrc.py`).

The program computes the second-harmonic nonlinear reflection coefficient of a
silicon surface from tabulated susceptibility spectra.  Numpy arrays over the
fixed 1200-point energy grid are modelled as `List ℂ` / `List ℝ`, built with
the index-function constructor `afn`; elementwise numpy arithmetic becomes
`List.zipWith` / `List.map`.  The scipy spline interpolants of the linear
susceptibility table are external library objects and are modelled as abstract
functions `ℝ → ℝ` carried in a `Config`; the four loaded χ⁽²⁾ spectra are
lists of complex values, as produced by `load_matrix`.  The Python `if/elif`
chains with no `else` branch leave the result variable unbound for any other
polarization string, which raises at runtime; this is modelled by an `Option`
result.
-/

open List

namespace NRC

/-- the list `[f 0, f 1, …, f (n-1)]`: a numpy array of length `n` described
by its index function. -/
def afn {α : Type} (n : ℕ) (f : ℕ → α) : List α := (List.range n).map f

/-- degrees to radians, as `math.radians`. -/
noncomputable def radians (d : ℝ) : ℝ := d * Real.pi / 180

/-- incidence angle θ from the configuration block: `radians(65)`. -/
noncomputable def THETA_RAD : ℝ := radians 65

/-- azimuthal angle φ from the configuration block: `radians(30)`. -/
noncomputable def PHI_RAD : ℝ := radians 30

/-- electronic density and scaling factor `1e-28`. -/
noncomputable def ELEC_DENS : ℝ := 1e-28

/-- speed of light in m/s, `scipy.constants.c`. -/
def C_LIGHT : ℝ := 299792458

/-- Planck constant over 2 pi in eV s (scipy CODATA value). -/
noncomputable def HBAR_EVS : ℝ := 6.582119514e-16

/-- Rydberg constant times hc in eV (scipy CODATA value). -/
noncomputable def RYDBERG_EV : ℝ := 13.605693009

/-- lattice parameter of silicon in m (scipy CODATA value). -/
noncomputable def LATTICE_SI : ℝ := 5.431020511e-10

/-- `numpy.linspace a b n`: `n` evenly spaced points from `a` to `b`,
endpoints included. -/
noncomputable def linspace (a b : ℝ) (n : ℕ) : List ℝ :=
  afn n (fun i => a + (i : ℕ) * ((b - a) / ((n : ℝ) - 1)))

/-- the fixed energy grid `ENERGIES = linspace(0.01, 12.00, 1200)`. -/
noncomputable def ENERGIES : List ℝ := linspace 0.01 12.00 1200

/-- configuration and loaded data of one run: the two fixed angles, the scipy
spline interpolants fitted to the real and imaginary parts of the χ⁽¹⁾ table
(`chi1_real` / `chi1_imag`, modelled as abstract functions since the spline
construction is a library call), and the four χ⁽²⁾ spectra as loaded by
`load_matrix` from the `zzz`, `zxx`, `xxz`, `xxx` files. -/
structure Config where
  theta : ℝ
  phi : ℝ
  chi1re : ℝ → ℝ
  chi1im : ℝ → ℝ
  zzzdat : List ℂ
  zxxdat : List ℂ
  xxzdat : List ℂ
  xxxdat : List ℂ

/-- `epsilon`: combines the splines for the real and imaginary parts of chi1,
`linear = 1 + 4π·(chi1_real + 1j·chi1_imag)`. -/
noncomputable def epsilon (cfg : Config) (energy : ℝ) : ℂ :=
  1 + 4 * (Real.pi : ℂ) * ((cfg.chi1re energy : ℂ) + Complex.I * (cfg.chi1im energy : ℂ))

/-- `wave_vector`: `k = sqrt(epsilon(energy) - sin(THETA_RAD)**2)`, with the
principal branch of the complex square root (numpy `sqrt`). -/
noncomputable def wave_vector (cfg : Config) (energy : ℝ) : ℂ :=
  (epsilon cfg energy - (Real.sin cfg.theta : ℂ) ^ 2) ^ ((1 : ℂ) / 2)

/-- `rif_constants`: the constant prefactor
`32·π³·E² / (ELEC_DENS·(100c)³·cos²θ·ħ²)`. -/
noncomputable def rif_constants (cfg : Config) (energy : ℝ) : ℝ :=
  32 * Real.pi ^ 3 * energy ^ 2 /
    (ELEC_DENS * (C_LIGHT * 100) ^ 3 * Real.cos cfg.theta ^ 2 * HBAR_EVS ^ 2)

/-- `electrostatic_units`: the complex conversion factor applied to the χ⁽²⁾
tables. -/
noncomputable def electrostatic_units (energy : ℝ) : ℂ :=
  let complex_esu : ℂ :=
    Complex.I * ((2 * RYDBERG_EV : ℝ) : ℂ) ^ 5 *
      (((0.53e-8 / (LATTICE_SI * 100) : ℝ) : ℂ)) ^ 5 /
      (((2 * Real.sqrt 3) / (2 * Real.sqrt 2) ^ 2 : ℝ) : ℂ)
  complex_esu * ((2.08e-15 : ℝ) : ℂ) * (((LATTICE_SI * 100 / 1e-8 : ℝ) : ℂ)) ^ 3 /
    ((energy : ℝ) : ℂ) ^ 3

/-- `fresnel_vs`: Fresnel factors from vacuum to surface, elementwise over the
energy array.  Polarizations other than `"s"`/`"p"` leave the Python local
unbound, hence `none`. -/
noncomputable def fresnel_vs (cfg : Config) (polarization : String)
    (energy : List ℝ) : Option (List ℂ) :=
  if polarization = "s" then
    some (energy.map fun e =>
      ((2 * Real.cos cfg.theta : ℝ) : ℂ) / ((Real.cos cfg.theta : ℂ) + wave_vector cfg e))
  else if polarization = "p" then
    some (energy.map fun e =>
      ((2 * Real.cos cfg.theta : ℝ) : ℂ) /
        (epsilon cfg e * (Real.cos cfg.theta : ℂ) + wave_vector cfg e))
  else none

/-- `fresnel_sb`: Fresnel factors from surface to bulk (Fresnel model).  The
`"s"` branch is the hard-coded `ones(1200, dtype=complex128)`. -/
noncomputable def fresnel_sb (cfg : Config) (polarization : String)
    (energy : List ℝ) : Option (List ℂ) :=
  if polarization = "s" then
    some (List.replicate 1200 (1 : ℂ))
  else if polarization = "p" then
    some (energy.map fun e => 1 / epsilon cfg e)
  else none

/-- elementwise product of two numpy arrays. -/
def emul : List ℂ → List ℂ → List ℂ := List.zipWith (· * ·)

/-- elementwise sum of two numpy arrays. -/
def eadd : List ℂ → List ℂ → List ℂ := List.zipWith (· + ·)

/-- elementwise difference of two numpy arrays. -/
def esub : List ℂ → List ℂ → List ℂ := List.zipWith (· - ·)

/-- scalar times array. -/
def cmul (z : ℂ) (l : List ℂ) : List ℂ := l.map (z * ·)

/-- array times scalar. -/
def amul (l : List ℂ) (z : ℂ) : List ℂ := l.map (· * z)

/-- elementwise negation. -/
def eneg (l : List ℂ) : List ℂ := l.map (- ·)

/-- `reflection_components`: the polarization-dispatched r-factors.  The χ⁽²⁾
tables are scaled by `electrostatic_units(energy)` elementwise; the four
branches follow the source expressions; any other polarization pair leaves the
Python local unbound, hence `none`. -/
noncomputable def reflection_components (cfg : Config) (polar_in polar_out : String)
    (energy twoenergy : List ℝ) : Option (List ℂ) :=
  let esu := energy.map electrostatic_units
  let zzz := emul esu cfg.zzzdat
  let zxx := emul esu cfg.zxxdat
  let xxz := emul esu cfg.xxzdat
  let xxx := emul esu cfg.xxxdat
  let eps1 := energy.map (epsilon cfg)
  let eps2 := twoenergy.map (epsilon cfg)
  let k1 := energy.map (wave_vector cfg)
  let k2 := twoenergy.map (wave_vector cfg)
  let sinth : ℂ := (Real.sin cfg.theta : ℝ)
  let cos3phi : ℂ := (Real.cos (3 * cfg.phi) : ℝ)
  let sin3phi : ℂ := (Real.sin (3 * cfg.phi) : ℝ)
  if polar_in = "p" ∧ polar_out = "p" then
    some (eadd
      (emul (cmul sinth eps2)
        (eadd (emul (cmul (sinth ^ 2) (emul eps1 eps1)) zzz)
              (emul (emul (emul k1 k1) (emul eps1 eps1)) zxx)))
      (emul (emul (emul (emul eps1 eps2) k1) k2)
        (eadd (cmul (-2 * sinth) (emul eps1 xxz))
              (amul (emul (emul k1 eps1) xxx) cos3phi))))
  else if polar_in = "s" ∧ polar_out = "p" then
    some (esub (emul (cmul sinth eps2) zxx)
               (amul (emul (emul k2 eps2) xxx) cos3phi))
  else if polar_in = "p" ∧ polar_out = "s" then
    some (amul (emul (eneg (emul k1 k1)) (emul (emul eps1 eps1) xxx)) sin3phi)
  else if polar_in = "s" ∧ polar_out = "s" then
    some (amul xxx sin3phi)
  else none

/-- one polarization state of `nonlinear_reflection`: the reflectivity array
`rif_constants(onee) * |fvs(out,2E)·fsb(out,2E)·(fvs(in,E)·fsb(in,E))²·r|²`. -/
noncomputable def nrc_of_state (cfg : Config) (pin pout : String) : Option (List ℝ) := do
  let onee := linspace 0.01 12.00 1200
  let twoe := onee.map (fun e => 2 * e)
  let fvs2 ← fresnel_vs cfg pout twoe
  let fsb2 ← fresnel_sb cfg pout twoe
  let fvs1 ← fresnel_vs cfg pin onee
  let fsb1 ← fresnel_sb cfg pin onee
  let rfac ← reflection_components cfg pin pout onee twoe
  let vs1sb1 := emul fvs1 fsb1
  let amp := emul (emul (emul fvs2 fsb2) (emul vs1sb1 vs1sb1)) rfac
  return List.zipWith (fun e a => rif_constants cfg e * Complex.abs a ^ 2) onee amp

/-- `nonlinear_reflection`: loops over the four polarization states and pairs
each reflectivity array with the energy grid (`column_stack`), tagged with the
output name `"R" ++ in ++ out`. -/
noncomputable def nonlinear_reflection (cfg : Config) :
    Option (List (String × List (ℝ × ℝ))) :=
  let onee := linspace 0.01 12.00 1200
  let polarization := [("p", "p"), ("p", "s"), ("s", "p"), ("s", "s")]
  polarization.mapM (fun state => do
    let nrc ← nrc_of_state cfg state.1 state.2
    return ("R" ++ state.1 ++ state.2, onee.zip nrc))

/-- `load_matrix`: `loadtxt(in_file, unpack=True, usecols=[1, 2])` followed by
`real + 1j*imaginary`.  The parsed file is a list of rows of numbers; `loadtxt`
raises when a requested column is missing from some row (modelled by the
`FormatError` branch), and otherwise returns one complex value per row, with no
check of the row count. -/
def load_matrix (table : List (List ℝ)) : Except String (List ℂ) :=
  if table.all (fun row => decide (3 ≤ row.length)) then
    Except.ok (table.map fun row =>
      ((row.getD 1 0 : ℝ) : ℂ) + Complex.I * ((row.getD 2 0 : ℝ) : ℂ))
  else
    Except.error "FormatError"

/-! Spec-side scalar definitions.  The spec states the pipeline elementwise
over the energy grid; these scalar functions transcribe the spec formulas and
are compared with the array-level source embedding above. -/

/-- spec-side scalar vacuum-to-surface Fresnel factor:
`s: 2cosθ/(cosθ+k(E))`, `p: 2cosθ/(ε(E)cosθ+k(E))`. -/
noncomputable def fresnel_vs_at (cfg : Config) (pol : String) (energy : ℝ) : ℂ :=
  if pol = "s" then
    ((2 * Real.cos cfg.theta : ℝ) : ℂ) / ((Real.cos cfg.theta : ℂ) + wave_vector cfg energy)
  else
    ((2 * Real.cos cfg.theta : ℝ) : ℂ) /
      (epsilon cfg energy * (Real.cos cfg.theta : ℂ) + wave_vector cfg energy)

/-- spec-side scalar surface-to-bulk Fresnel factor: `s: 1`, `p: 1/ε(E)`. -/
noncomputable def fresnel_sb_at (cfg : Config) (pol : String) (energy : ℝ) : ℂ :=
  if pol = "s" then 1 else 1 / epsilon cfg energy

/-- spec-side scalar r-factor: the four closed forms of the spec, with the
χ⁽²⁾ values `zzzv zxxv xxzv xxxv` scaled by `electrostatic_units` at the
fundamental energy. -/
noncomputable def r_factor_at (cfg : Config) (pin pout : String) (e te : ℝ)
    (zzzv zxxv xxzv xxxv : ℂ) : ℂ :=
  let zzz := electrostatic_units e * zzzv
  let zxx := electrostatic_units e * zxxv
  let xxz := electrostatic_units e * xxzv
  let xxx := electrostatic_units e * xxxv
  let eps1 := epsilon cfg e
  let eps2 := epsilon cfg te
  let k1 := wave_vector cfg e
  let k2 := wave_vector cfg te
  let sinth : ℂ := (Real.sin cfg.theta : ℝ)
  let cos3phi : ℂ := (Real.cos (3 * cfg.phi) : ℝ)
  let sin3phi : ℂ := (Real.sin (3 * cfg.phi) : ℝ)
  if pin = "p" ∧ pout = "p" then
    sinth * eps2 * (sinth ^ 2 * eps1 ^ 2 * zzz + k1 ^ 2 * eps1 ^ 2 * zxx) +
      eps1 * eps2 * k1 * k2 * (-2 * sinth * eps1 * xxz + k1 * eps1 * xxx * cos3phi)
  else if pin = "s" ∧ pout = "p" then
    sinth * eps2 * zxx - k2 * eps2 * xxx * cos3phi
  else if pin = "p" ∧ pout = "s" then
    -(k1 ^ 2) * eps1 ^ 2 * xxx * sin3phi
  else if pin = "s" ∧ pout = "s" then
    xxx * sin3phi
  else 0

/-- spec-side scalar reflection coefficient:
`R = rif_constant(E)·|fvs(out,2E)·fsb(out,2E)·(fvs(in,E)·fsb(in,E))²·r|²`. -/
noncomputable def R_at (cfg : Config) (pin pout : String) (e : ℝ)
    (zzzv zxxv xxzv xxxv : ℂ) : ℝ :=
  rif_constants cfg e * Complex.abs
    (fresnel_vs_at cfg pout (2 * e) * fresnel_sb_at cfg pout (2 * e) *
      (fresnel_vs_at cfg pin e * fresnel_sb_at cfg pin e) ^ 2 *
      r_factor_at cfg pin pout e (2 * e) zzzv zxxv xxzv xxxv) ^ 2

/-- the `i`-th point of the energy grid. -/
noncomputable def gridE (i : ℕ) : ℝ :=
  0.01 + (i : ℕ) * ((12.00 - 0.01) / (((1200 : ℕ) : ℝ) - 1))

/-- a configuration whose four χ⁽²⁾ spectra are given pointwise over the
1200-point grid; every spectrum loadable from a conforming input file has this
form. -/
noncomputable def mkCfg (th ph : ℝ) (c1re c1im : ℝ → ℝ)
    (zzz zxx xxz xxx : ℕ → ℂ) : Config :=
  Config.mk th ph c1re c1im (afn 1200 zzz) (afn 1200 zxx) (afn 1200 xxz) (afn 1200 xxx)

/-- a closed sample configuration, used to instantiate hypotheses of the
universally quantified theorems below at a concrete input. -/
noncomputable def cfgW : Config :=
  mkCfg 0 0 (fun _ => 0) (fun _ => 0) (fun _ => 0) (fun _ => 0) (fun _ => 0) (fun _ => 0)

/-! General lemmas: pointwise normal forms for the array operations.  All are
stated for a generic length `n` and only ever instantiated by rewriting, so
that the grid length 1200 is never unfolded. -/

theorem length_afn {α : Type} (n : ℕ) (f : ℕ → α) : (afn n f).length = n := by
  simp [afn]

theorem getElem_afn {α : Type} {n i : ℕ} (f : ℕ → α) (h : i < (afn n f).length) :
    (afn n f)[i] = f i := by
  simp [afn]

theorem afn_congr {α : Type} {n : ℕ} {f g : ℕ → α} (h : ∀ i, i < n → f i = g i) :
    afn n f = afn n g := by
  apply List.ext_getElem
  · simp [length_afn]
  · intro i h1 h2
    rw [getElem_afn, getElem_afn]
    exact h i (by simpa [length_afn] using h1)

theorem zipWith_afn {α β γ : Type} {n : ℕ} (F : α → β → γ) (f : ℕ → α) (g : ℕ → β) :
    List.zipWith F (afn n f) (afn n g) = afn n (fun i => F (f i) (g i)) := by
  apply List.ext_getElem
  · simp [length_afn]
  · intro i h1 h2
    simp [List.getElem_zipWith, getElem_afn]

theorem map_afn {α β : Type} {n : ℕ} (F : α → β) (f : ℕ → α) :
    (afn n f).map F = afn n (fun i => F (f i)) := by
  apply List.ext_getElem
  · simp [length_afn]
  · intro i h1 h2
    simp [getElem_afn]

theorem replicate_afn {α : Type} (n : ℕ) (c : α) :
    List.replicate n c = afn n (fun _ => c) := by
  apply List.ext_getElem
  · simp [length_afn]
  · intro i h1 h2
    simp [getElem_afn]

theorem zip_afn {α β : Type} {n : ℕ} (f : ℕ → α) (g : ℕ → β) :
    List.zip (afn n f) (afn n g) = afn n (fun i => (f i, g i)) := by
  rw [List.zip]
  exact zipWith_afn _ f g

theorem emul_afn {n : ℕ} (f g : ℕ → ℂ) :
    emul (afn n f) (afn n g) = afn n (fun i => f i * g i) := zipWith_afn _ f g

theorem eadd_afn {n : ℕ} (f g : ℕ → ℂ) :
    eadd (afn n f) (afn n g) = afn n (fun i => f i + g i) := zipWith_afn _ f g

theorem esub_afn {n : ℕ} (f g : ℕ → ℂ) :
    esub (afn n f) (afn n g) = afn n (fun i => f i - g i) := zipWith_afn _ f g

theorem cmul_afn {n : ℕ} (z : ℂ) (f : ℕ → ℂ) :
    cmul z (afn n f) = afn n (fun i => z * f i) := map_afn _ f

theorem amul_afn {n : ℕ} (z : ℂ) (f : ℕ → ℂ) :
    amul (afn n f) z = afn n (fun i => f i * z) := map_afn _ f

theorem eneg_afn {n : ℕ} (f : ℕ → ℂ) :
    eneg (afn n f) = afn n (fun i => -(f i)) := map_afn _ f

theorem ENERGIES_afn : ENERGIES = afn 1200 gridE := by
  unfold ENERGIES linspace gridE
  rfl

theorem mkCfg_theta (th ph : ℝ) (c1re c1im : ℝ → ℝ) (zzz zxx xxz xxx : ℕ → ℂ) :
    (mkCfg th ph c1re c1im zzz zxx xxz xxx).theta = th := rfl

theorem mkCfg_phi (th ph : ℝ) (c1re c1im : ℝ → ℝ) (zzz zxx xxz xxx : ℕ → ℂ) :
    (mkCfg th ph c1re c1im zzz zxx xxz xxx).phi = ph := rfl

theorem config_mk_zzzdat (th ph : ℝ) (c1re c1im : ℝ → ℝ) (l1 l2 l3 l4 : List ℂ) :
    (Config.mk th ph c1re c1im l1 l2 l3 l4).zzzdat = l1 := rfl

theorem config_mk_zxxdat (th ph : ℝ) (c1re c1im : ℝ → ℝ) (l1 l2 l3 l4 : List ℂ) :
    (Config.mk th ph c1re c1im l1 l2 l3 l4).zxxdat = l2 := rfl

theorem config_mk_xxzdat (th ph : ℝ) (c1re c1im : ℝ → ℝ) (l1 l2 l3 l4 : List ℂ) :
    (Config.mk th ph c1re c1im l1 l2 l3 l4).xxzdat = l3 := rfl

theorem config_mk_xxxdat (th ph : ℝ) (c1re c1im : ℝ → ℝ) (l1 l2 l3 l4 : List ℂ) :
    (Config.mk th ph c1re c1im l1 l2 l3 l4).xxxdat = l4 := rfl

theorem mkCfg_zzzdat (th ph : ℝ) (c1re c1im : ℝ → ℝ) (zzz zxx xxz xxx : ℕ → ℂ) :
    (mkCfg th ph c1re c1im zzz zxx xxz xxx).zzzdat = afn 1200 zzz := by
  unfold mkCfg
  exact config_mk_zzzdat _ _ _ _ _ _ _ _

theorem mkCfg_zxxdat (th ph : ℝ) (c1re c1im : ℝ → ℝ) (zzz zxx xxz xxx : ℕ → ℂ) :
    (mkCfg th ph c1re c1im zzz zxx xxz xxx).zxxdat = afn 1200 zxx := by
  unfold mkCfg
  exact config_mk_zxxdat _ _ _ _ _ _ _ _

theorem mkCfg_xxzdat (th ph : ℝ) (c1re c1im : ℝ → ℝ) (zzz zxx xxz xxx : ℕ → ℂ) :
    (mkCfg th ph c1re c1im zzz zxx xxz xxx).xxzdat = afn 1200 xxz := by
  unfold mkCfg
  exact config_mk_xxzdat _ _ _ _ _ _ _ _

theorem mkCfg_xxxdat (th ph : ℝ) (c1re c1im : ℝ → ℝ) (zzz zxx xxz xxx : ℕ → ℂ) :
    (mkCfg th ph c1re c1im zzz zxx xxz xxx).xxxdat = afn 1200 xxx := by
  unfold mkCfg
  exact config_mk_xxxdat _ _ _ _ _ _ _ _

/-! Evaluation lemmas for the Fresnel factors at the two valid polarizations. -/

theorem fresnel_vs_s_eval (cfg : Config) (energy : List ℝ) :
    fresnel_vs cfg "s" energy = some (energy.map (fresnel_vs_at cfg "s")) := by
  simp [fresnel_vs, fresnel_vs_at]

theorem fresnel_vs_p_eval (cfg : Config) (energy : List ℝ) :
    fresnel_vs cfg "p" energy = some (energy.map (fresnel_vs_at cfg "p")) := by
  simp [fresnel_vs, fresnel_vs_at]

theorem fresnel_sb_s_eval (cfg : Config) (energy : List ℝ) :
    fresnel_sb cfg "s" energy = some (afn 1200 (fun _ => (1 : ℂ))) := by
  have h1 : fresnel_sb cfg "s" energy = some (List.replicate 1200 (1 : ℂ)) := by
    unfold fresnel_sb
    rw [if_pos rfl]
  rw [h1, replicate_afn]

theorem fresnel_sb_at_s (cfg : Config) (energy : ℝ) :
    fresnel_sb_at cfg "s" energy = 1 := by
  simp [fresnel_sb_at]

theorem fresnel_sb_p_eval (cfg : Config) (energy : List ℝ) :
    fresnel_sb cfg "p" energy = some (energy.map (fresnel_sb_at cfg "p")) := by
  simp [fresnel_sb, fresnel_sb_at]

theorem linspace_afn : linspace 0.01 12.00 1200 = afn 1200 gridE := by
  unfold linspace gridE
  rfl

/-! Evaluation lemmas for `reflection_components` at the four polarization
pairs: the array combination equals the spec-side scalar r-factor pointwise. -/

theorem rc_pp_eval (th ph : ℝ) (c1re c1im : ℝ → ℝ) (zzz zxx xxz xxx : ℕ → ℂ)
    (e1 e2 : ℕ → ℝ) :
    reflection_components (mkCfg th ph c1re c1im zzz zxx xxz xxx) "p" "p"
        (afn 1200 e1) (afn 1200 e2) =
      some (afn 1200 fun i =>
        r_factor_at (mkCfg th ph c1re c1im zzz zxx xxz xxx) "p" "p" (e1 i) (e2 i)
          (zzz i) (zxx i) (xxz i) (xxx i)) := by
  simp only [reflection_components, r_factor_at, mkCfg_zzzdat, mkCfg_zxxdat,
    mkCfg_xxzdat, mkCfg_xxxdat, map_afn, emul_afn, eadd_afn, esub_afn,
    cmul_afn, amul_afn, eneg_afn, String.reduceEq, and_self, if_true, and_true,
    true_and, false_and, and_false, if_false, Option.some.injEq]
  apply afn_congr
  intro i hi
  ring

theorem rc_sp_eval (th ph : ℝ) (c1re c1im : ℝ → ℝ) (zzz zxx xxz xxx : ℕ → ℂ)
    (e1 e2 : ℕ → ℝ) :
    reflection_components (mkCfg th ph c1re c1im zzz zxx xxz xxx) "s" "p"
        (afn 1200 e1) (afn 1200 e2) =
      some (afn 1200 fun i =>
        r_factor_at (mkCfg th ph c1re c1im zzz zxx xxz xxx) "s" "p" (e1 i) (e2 i)
          (zzz i) (zxx i) (xxz i) (xxx i)) := by
  simp only [reflection_components, r_factor_at, mkCfg_zzzdat, mkCfg_zxxdat,
    mkCfg_xxzdat, mkCfg_xxxdat, map_afn, emul_afn, eadd_afn, esub_afn,
    cmul_afn, amul_afn, eneg_afn, String.reduceEq, and_self, if_true, and_true,
    true_and, false_and, and_false, if_false, Option.some.injEq]

theorem rc_ps_eval (th ph : ℝ) (c1re c1im : ℝ → ℝ) (zzz zxx xxz xxx : ℕ → ℂ)
    (e1 e2 : ℕ → ℝ) :
    reflection_components (mkCfg th ph c1re c1im zzz zxx xxz xxx) "p" "s"
        (afn 1200 e1) (afn 1200 e2) =
      some (afn 1200 fun i =>
        r_factor_at (mkCfg th ph c1re c1im zzz zxx xxz xxx) "p" "s" (e1 i) (e2 i)
          (zzz i) (zxx i) (xxz i) (xxx i)) := by
  simp only [reflection_components, r_factor_at, mkCfg_zzzdat, mkCfg_zxxdat,
    mkCfg_xxzdat, mkCfg_xxxdat, map_afn, emul_afn, eadd_afn, esub_afn,
    cmul_afn, amul_afn, eneg_afn, String.reduceEq, and_self, if_true, and_true,
    true_and, false_and, and_false, if_false, Option.some.injEq]
  apply afn_congr
  intro i hi
  ring

theorem rc_ss_eval (th ph : ℝ) (c1re c1im : ℝ → ℝ) (zzz zxx xxz xxx : ℕ → ℂ)
    (e1 e2 : ℕ → ℝ) :
    reflection_components (mkCfg th ph c1re c1im zzz zxx xxz xxx) "s" "s"
        (afn 1200 e1) (afn 1200 e2) =
      some (afn 1200 fun i =>
        r_factor_at (mkCfg th ph c1re c1im zzz zxx xxz xxx) "s" "s" (e1 i) (e2 i)
          (zzz i) (zxx i) (xxz i) (xxx i)) := by
  simp only [reflection_components, r_factor_at, mkCfg_zzzdat, mkCfg_zxxdat,
    mkCfg_xxzdat, mkCfg_xxxdat, map_afn, emul_afn, eadd_afn, esub_afn,
    cmul_afn, amul_afn, eneg_afn, String.reduceEq, and_self, if_true, and_true,
    true_and, false_and, and_false, if_false, Option.some.injEq]

theorem Rscalar_congr (r : ℝ) (x y : ℂ) (h : x = y) :
    r * Complex.abs x ^ 2 = r * Complex.abs y ^ 2 := by rw [h]

/-! Evaluation lemmas for `nrc_of_state` at the four polarization states. -/

theorem nrc_ss_eval (th ph : ℝ) (c1re c1im : ℝ → ℝ) (zzz zxx xxz xxx : ℕ → ℂ) :
    nrc_of_state (mkCfg th ph c1re c1im zzz zxx xxz xxx) "s" "s" =
      some (afn 1200 fun i =>
        R_at (mkCfg th ph c1re c1im zzz zxx xxz xxx) "s" "s" (gridE i)
          (zzz i) (zxx i) (xxz i) (xxx i)) := by
  unfold nrc_of_state
  simp only [linspace_afn, map_afn, fresnel_vs_s_eval, fresnel_sb_s_eval,
    rc_ss_eval, Option.bind_eq_bind, Option.some_bind, Option.pure_def,
    emul_afn, zipWith_afn, Option.some.injEq, R_at, fresnel_sb_at_s]
  apply afn_congr
  intro i hi
  exact Rscalar_congr _ _ _ (by ring)

theorem nrc_pp_eval (th ph : ℝ) (c1re c1im : ℝ → ℝ) (zzz zxx xxz xxx : ℕ → ℂ) :
    nrc_of_state (mkCfg th ph c1re c1im zzz zxx xxz xxx) "p" "p" =
      some (afn 1200 fun i =>
        R_at (mkCfg th ph c1re c1im zzz zxx xxz xxx) "p" "p" (gridE i)
          (zzz i) (zxx i) (xxz i) (xxx i)) := by
  unfold nrc_of_state
  simp only [linspace_afn, map_afn, fresnel_vs_p_eval, fresnel_sb_p_eval,
    rc_pp_eval, Option.bind_eq_bind, Option.some_bind, Option.pure_def,
    emul_afn, zipWith_afn, Option.some.injEq, R_at]
  apply afn_congr
  intro i hi
  exact Rscalar_congr _ _ _ (by ring)

theorem nrc_ps_eval (th ph : ℝ) (c1re c1im : ℝ → ℝ) (zzz zxx xxz xxx : ℕ → ℂ) :
    nrc_of_state (mkCfg th ph c1re c1im zzz zxx xxz xxx) "p" "s" =
      some (afn 1200 fun i =>
        R_at (mkCfg th ph c1re c1im zzz zxx xxz xxx) "p" "s" (gridE i)
          (zzz i) (zxx i) (xxz i) (xxx i)) := by
  unfold nrc_of_state
  simp only [linspace_afn, map_afn, fresnel_vs_s_eval, fresnel_sb_s_eval,
    fresnel_vs_p_eval, fresnel_sb_p_eval, rc_ps_eval, Option.bind_eq_bind,
    Option.some_bind, Option.pure_def, emul_afn, zipWith_afn,
    Option.some.injEq, R_at, fresnel_sb_at_s]
  apply afn_congr
  intro i hi
  exact Rscalar_congr _ _ _ (by ring)

theorem nrc_sp_eval (th ph : ℝ) (c1re c1im : ℝ → ℝ) (zzz zxx xxz xxx : ℕ → ℂ) :
    nrc_of_state (mkCfg th ph c1re c1im zzz zxx xxz xxx) "s" "p" =
      some (afn 1200 fun i =>
        R_at (mkCfg th ph c1re c1im zzz zxx xxz xxx) "s" "p" (gridE i)
          (zzz i) (zxx i) (xxz i) (xxx i)) := by
  unfold nrc_of_state
  simp only [linspace_afn, map_afn, fresnel_vs_s_eval, fresnel_sb_s_eval,
    fresnel_vs_p_eval, fresnel_sb_p_eval, rc_sp_eval, Option.bind_eq_bind,
    Option.some_bind, Option.pure_def, emul_afn, zipWith_afn,
    Option.some.injEq, R_at, fresnel_sb_at_s]
  apply afn_congr
  intro i hi
  exact Rscalar_congr _ _ _ (by ring)

/-- full evaluation of `nonlinear_reflection`: one labelled table per
polarization state, with the spec-side scalar value at every grid point. -/
theorem nonlinear_reflection_eval (th ph : ℝ) (c1re c1im : ℝ → ℝ)
    (zzz zxx xxz xxx : ℕ → ℂ) :
    nonlinear_reflection (mkCfg th ph c1re c1im zzz zxx xxz xxx) =
      some
        [("Rpp", afn 1200 fun i => (gridE i,
            R_at (mkCfg th ph c1re c1im zzz zxx xxz xxx) "p" "p" (gridE i)
              (zzz i) (zxx i) (xxz i) (xxx i))),
         ("Rps", afn 1200 fun i => (gridE i,
            R_at (mkCfg th ph c1re c1im zzz zxx xxz xxx) "p" "s" (gridE i)
              (zzz i) (zxx i) (xxz i) (xxx i))),
         ("Rsp", afn 1200 fun i => (gridE i,
            R_at (mkCfg th ph c1re c1im zzz zxx xxz xxx) "s" "p" (gridE i)
              (zzz i) (zxx i) (xxz i) (xxx i))),
         ("Rss", afn 1200 fun i => (gridE i,
            R_at (mkCfg th ph c1re c1im zzz zxx xxz xxx) "s" "s" (gridE i)
              (zzz i) (zxx i) (xxz i) (xxx i)))] := by
  unfold nonlinear_reflection
  simp only [List.mapM_cons, List.mapM_nil, nrc_pp_eval, nrc_ps_eval,
    nrc_sp_eval, nrc_ss_eval, Option.bind_eq_bind, Option.some_bind,
    Option.pure_def, linspace_afn, zip_afn, Option.some.injEq]
  rfl

theorem mkCfg_chi1re (th ph : ℝ) (c1re c1im : ℝ → ℝ) (zzz zxx xxz xxx : ℕ → ℂ) :
    (mkCfg th ph c1re c1im zzz zxx xxz xxx).chi1re = c1re := rfl

theorem mkCfg_chi1im (th ph : ℝ) (c1re c1im : ℝ → ℝ) (zzz zxx xxz xxx : ℕ → ℂ) :
    (mkCfg th ph c1re c1im zzz zxx xxz xxx).chi1im = c1im := rfl

theorem mem_afn {α : Type} {n : ℕ} {f : ℕ → α} {x : α} :
    x ∈ afn n f ↔ ∃ i, i < n ∧ f i = x := by
  simp [afn]

theorem rif_constants_nonneg (cfg : Config) (energy : ℝ) :
    0 ≤ rif_constants cfg energy := by
  unfold rif_constants
  apply div_nonneg
  · positivity
  · have h1 : (0 : ℝ) ≤ ELEC_DENS := by unfold ELEC_DENS; norm_num
    have h2 : (0 : ℝ) ≤ (C_LIGHT * 100) ^ 3 := by unfold C_LIGHT; positivity
    exact mul_nonneg (mul_nonneg (mul_nonneg h1 h2) (sq_nonneg _)) (sq_nonneg _)

theorem R_at_nonneg (cfg : Config) (pin pout : String) (e : ℝ)
    (zzzv zxxv xxzv xxxv : ℂ) : 0 ≤ R_at cfg pin pout e zzzv zxxv xxzv xxxv := by
  unfold R_at
  exact mul_nonneg (rif_constants_nonneg cfg e) (sq_nonneg _)

theorem r_factor_at_zero (cfg : Config) (pin pout : String) (e te : ℝ) :
    r_factor_at cfg pin pout e te 0 0 0 0 = 0 := by
  unfold r_factor_at
  split_ifs <;> ring

theorem R_at_zero (cfg : Config) (pin pout : String) (e : ℝ) :
    R_at cfg pin pout e 0 0 0 0 = 0 := by
  unfold R_at
  rw [r_factor_at_zero, mul_zero, map_zero]
  ring

/-- the principal branch of the complex square root has non-negative real
part. -/
theorem re_cpow_half_nonneg (z : ℂ) : 0 ≤ (z ^ ((1 : ℂ) / 2)).re := by
  by_cases hz : z = 0
  · subst hz
    rw [Complex.zero_cpow (by norm_num : ((1 : ℂ) / 2) ≠ 0)]
    simp
  · rw [Complex.cpow_def_of_ne_zero hz, Complex.exp_re]
    apply mul_nonneg (Real.exp_nonneg _)
    have him : (Complex.log z * ((1 : ℂ) / 2)).im = z.arg / 2 := by
      simp [Complex.mul_im, Complex.log_im]
      ring
    rw [him]
    apply Real.cos_nonneg_of_mem_Icc
    constructor
    · have := Complex.neg_pi_lt_arg z
      linarith
    · have := Complex.arg_le_pi z
      linarith

/-! Claim theorems. -/

/-- C4: for every energy, `epsilon(E)` equals
`1 + 4π·(chi1_real(E) + i·chi1_imag(E))`, with the independently interpolated
real and imaginary parts of chi1 entering as the real and imaginary
components. -/
theorem C4_epsilon_def (cfg : Config) (energy : ℝ) :
    epsilon cfg energy =
      1 + 4 * (Real.pi : ℂ) *
        ((cfg.chi1re energy : ℂ) + Complex.I * (cfg.chi1im energy : ℂ)) ∧
    (epsilon cfg energy).re = 1 + 4 * Real.pi * cfg.chi1re energy ∧
    (epsilon cfg energy).im = 4 * Real.pi * cfg.chi1im energy := by
  refine ⟨rfl, ?_, ?_⟩ <;> simp [epsilon]

/-- C5: `wave_vector(E)` is the principal branch of the complex square root of
`epsilon(E) − sin²θ`, hence its real part is non-negative for every energy and
every configuration. -/
theorem C5_wave_vector_principal_branch (cfg : Config) (energy : ℝ) :
    wave_vector cfg energy =
      (epsilon cfg energy - (Real.sin cfg.theta : ℂ) ^ 2) ^ ((1 : ℂ) / 2) ∧
    0 ≤ (wave_vector cfg energy).re :=
  ⟨rfl, re_cpow_half_nonneg _⟩

/-- C6: `fresnel_sb` at polarization "s" is the constant array of 1200 ones —
1200 being the energy-grid length — with every entry equal to `1+0i`, and at
polarization "p" it is `1/epsilon(E)` elementwise. -/
theorem C6_fresnel_sb_branches (cfg : Config) (energy : List ℝ) :
    fresnel_sb cfg "s" energy = some (List.replicate 1200 (1 : ℂ)) ∧
    (List.replicate 1200 (1 : ℂ)).length = ENERGIES.length ∧
    (∀ z ∈ List.replicate 1200 (1 : ℂ), z = 1) ∧
    fresnel_sb cfg "p" energy = some (energy.map fun e => 1 / epsilon cfg e) := by
  refine ⟨?_, ?_, ?_, ?_⟩
  · unfold fresnel_sb
    rw [if_pos rfl]
  · rw [ENERGIES_afn, length_afn, List.length_replicate]
  · intro z hz
    exact List.eq_of_mem_replicate hz
  · simp [fresnel_sb]

theorem C6_witness :
    fresnel_sb cfgW "s" [] = some (List.replicate 1200 (1 : ℂ)) ∧
    (List.replicate 1200 (1 : ℂ)).length = ENERGIES.length ∧
    (∀ z ∈ List.replicate 1200 (1 : ℂ), z = 1) ∧
    fresnel_sb cfgW "p" [] = some (([] : List ℝ).map fun e => 1 / epsilon cfgW e) :=
  C6_fresnel_sb_branches cfgW []

/-- C10: `fresnel_vs` and `fresnel_sb` are defined only for the polarization
strings "s" and "p": any other polarization yields no value (`none`), while
under the precondition `pol ∈ {"s", "p"}` both functions always return a
value. -/
theorem C10_fresnel_polarization_domain (cfg : Config) (pol : String)
    (energy : List ℝ) :
    (pol ≠ "s" → pol ≠ "p" →
      fresnel_vs cfg pol energy = none ∧ fresnel_sb cfg pol energy = none) ∧
    (pol = "s" ∨ pol = "p" →
      (fresnel_vs cfg pol energy).isSome = true ∧
      (fresnel_sb cfg pol energy).isSome = true) := by
  constructor
  · intro h1 h2
    constructor
    · unfold fresnel_vs
      rw [if_neg h1, if_neg h2]
    · unfold fresnel_sb
      rw [if_neg h1, if_neg h2]
  · rintro (rfl | rfl)
    · constructor
      · rw [fresnel_vs_s_eval]
        rfl
      · rw [fresnel_sb_s_eval]
        rfl
    · constructor
      · rw [fresnel_vs_p_eval]
        rfl
      · rw [fresnel_sb_p_eval]
        rfl

theorem C10_witness :
    (fresnel_vs cfgW "q" [] = none ∧ fresnel_sb cfgW "q" [] = none) ∧
    ((fresnel_vs cfgW "s" []).isSome = true ∧
      (fresnel_sb cfgW "s" []).isSome = true) :=
  ⟨(C10_fresnel_polarization_domain cfgW "q" []).1 (by decide) (by decide),
   (C10_fresnel_polarization_domain cfgW "s" []).2 (Or.inl rfl)⟩

/-- C1: for every polarization pair (in, out) ∈ {pp, ps, sp, ss} and every
energy on the grid, the nonlinear reflection coefficient computed by
`nonlinear_reflection` equals `rif_constants(E)` times the squared modulus of
`fresnel_vs(out,2E) · fresnel_sb(out,2E) · (fresnel_vs(in,E) ·
fresnel_sb(in,E))² · reflection_components(in,out,E,2E)` — the spec-side
scalar `R_at` — elementwise over the energy grid. -/
theorem C1_nonlinear_reflection_formula (th ph : ℝ) (c1re c1im : ℝ → ℝ)
    (zzz zxx xxz xxx : ℕ → ℂ) :
    nonlinear_reflection (mkCfg th ph c1re c1im zzz zxx xxz xxx) =
      some
        [("Rpp", afn 1200 fun i => (gridE i,
            R_at (mkCfg th ph c1re c1im zzz zxx xxz xxx) "p" "p" (gridE i)
              (zzz i) (zxx i) (xxz i) (xxx i))),
         ("Rps", afn 1200 fun i => (gridE i,
            R_at (mkCfg th ph c1re c1im zzz zxx xxz xxx) "p" "s" (gridE i)
              (zzz i) (zxx i) (xxz i) (xxx i))),
         ("Rsp", afn 1200 fun i => (gridE i,
            R_at (mkCfg th ph c1re c1im zzz zxx xxz xxx) "s" "p" (gridE i)
              (zzz i) (zxx i) (xxz i) (xxx i))),
         ("Rss", afn 1200 fun i => (gridE i,
            R_at (mkCfg th ph c1re c1im zzz zxx xxz xxx) "s" "s" (gridE i)
              (zzz i) (zxx i) (xxz i) (xxx i)))] :=
  nonlinear_reflection_eval th ph c1re c1im zzz zxx xxz xxx

/-- C2: `reflection_components` dispatches on the polarization pair and
returns exactly the four closed forms of the spec (transcribed in
`r_factor_at`), with the loaded χ⁽²⁾ spectra scaled elementwise by
`electrostatic_units` at the fundamental energy. -/
theorem C2_reflection_components_dispatch (th ph : ℝ) (c1re c1im : ℝ → ℝ)
    (zzz zxx xxz xxx : ℕ → ℂ) (e1 e2 : ℕ → ℝ) :
    (reflection_components (mkCfg th ph c1re c1im zzz zxx xxz xxx) "p" "p"
        (afn 1200 e1) (afn 1200 e2) =
      some (afn 1200 fun i =>
        r_factor_at (mkCfg th ph c1re c1im zzz zxx xxz xxx) "p" "p" (e1 i) (e2 i)
          (zzz i) (zxx i) (xxz i) (xxx i))) ∧
    (reflection_components (mkCfg th ph c1re c1im zzz zxx xxz xxx) "s" "p"
        (afn 1200 e1) (afn 1200 e2) =
      some (afn 1200 fun i =>
        r_factor_at (mkCfg th ph c1re c1im zzz zxx xxz xxx) "s" "p" (e1 i) (e2 i)
          (zzz i) (zxx i) (xxz i) (xxx i))) ∧
    (reflection_components (mkCfg th ph c1re c1im zzz zxx xxz xxx) "p" "s"
        (afn 1200 e1) (afn 1200 e2) =
      some (afn 1200 fun i =>
        r_factor_at (mkCfg th ph c1re c1im zzz zxx xxz xxx) "p" "s" (e1 i) (e2 i)
          (zzz i) (zxx i) (xxz i) (xxx i))) ∧
    (reflection_components (mkCfg th ph c1re c1im zzz zxx xxz xxx) "s" "s"
        (afn 1200 e1) (afn 1200 e2) =
      some (afn 1200 fun i =>
        r_factor_at (mkCfg th ph c1re c1im zzz zxx xxz xxx) "s" "s" (e1 i) (e2 i)
          (zzz i) (zxx i) (xxz i) (xxx i))) :=
  ⟨rc_pp_eval th ph c1re c1im zzz zxx xxz xxx e1 e2,
   rc_sp_eval th ph c1re c1im zzz zxx xxz xxx e1 e2,
   rc_ps_eval th ph c1re c1im zzz zxx xxz xxx e1 e2,
   rc_ss_eval th ph c1re c1im zzz zxx xxz xxx e1 e2⟩

/-- C3: for every configuration and any loaded susceptibility data,
`nonlinear_reflection` produces one table per polarization pair, each of the
energy-grid length, and every reflectivity value is a non-negative real
number (the value type of the embedding is ℝ, since numpy `absolute` is
real-valued). -/
theorem C3_output_real_nonneg_grid_length (th ph : ℝ) (c1re c1im : ℝ → ℝ)
    (zzz zxx xxz xxx : ℕ → ℂ) :
    ∃ out, nonlinear_reflection (mkCfg th ph c1re c1im zzz zxx xxz xxx) = some out ∧
      out.length = 4 ∧
      ∀ lbl tbl, (lbl, tbl) ∈ out →
        tbl.length = ENERGIES.length ∧ ∀ e r, (e, r) ∈ tbl → 0 ≤ r := by
  refine ⟨_, nonlinear_reflection_eval th ph c1re c1im zzz zxx xxz xxx, rfl, ?_⟩
  intro lbl tbl htbl
  have key : ∀ pin pout : String,
      (afn 1200 fun i => (gridE i,
        R_at (mkCfg th ph c1re c1im zzz zxx xxz xxx) pin pout (gridE i)
          (zzz i) (zxx i) (xxz i) (xxx i))).length = ENERGIES.length ∧
      ∀ e r, (e, r) ∈ (afn 1200 fun i => (gridE i,
        R_at (mkCfg th ph c1re c1im zzz zxx xxz xxx) pin pout (gridE i)
          (zzz i) (zxx i) (xxz i) (xxx i))) → 0 ≤ r := by
    intro pin pout
    constructor
    · rw [ENERGIES_afn, length_afn, length_afn]
    · intro e r hmem
      rw [mem_afn] at hmem
      obtain ⟨i, hi, heq⟩ := hmem
      rw [Prod.mk.injEq] at heq
      rw [← heq.2]
      exact R_at_nonneg _ _ _ _ _ _ _ _
  simp only [List.mem_cons, List.not_mem_nil, or_false, Prod.mk.injEq] at htbl
  rcases htbl with ⟨h1, h2⟩ | ⟨h1, h2⟩ | ⟨h1, h2⟩ | ⟨h1, h2⟩
  · rw [h2]
    exact key "p" "p"
  · rw [h2]
    exact key "p" "s"
  · rw [h2]
    exact key "s" "p"
  · rw [h2]
    exact key "s" "s"

theorem C3_witness :
    ∃ out, nonlinear_reflection (mkCfg 0 0 (fun _ => 0) (fun _ => 0)
        (fun _ => 0) (fun _ => 0) (fun _ => 0) (fun _ => 0)) = some out ∧
      out.length = 4 ∧
      ∀ lbl tbl, (lbl, tbl) ∈ out →
        tbl.length = ENERGIES.length ∧ ∀ e r, (e, r) ∈ tbl → 0 ≤ r :=
  C3_output_real_nonneg_grid_length 0 0 (fun _ => 0) (fun _ => 0)
    (fun _ => 0) (fun _ => 0) (fun _ => 0) (fun _ => 0)

/-- C7: if all four χ⁽²⁾ spectra are identically zero, the computed reflection
coefficient is exactly 0 for every polarization pair and every grid energy. -/
theorem C7_zero_chi2_gives_zero (th ph : ℝ) (c1re c1im : ℝ → ℝ) :
    nonlinear_reflection (mkCfg th ph c1re c1im
        (fun _ => 0) (fun _ => 0) (fun _ => 0) (fun _ => 0)) =
      some [("Rpp", afn 1200 fun i => (gridE i, 0)),
            ("Rps", afn 1200 fun i => (gridE i, 0)),
            ("Rsp", afn 1200 fun i => (gridE i, 0)),
            ("Rss", afn 1200 fun i => (gridE i, 0))] := by
  rw [nonlinear_reflection_eval]
  simp only [R_at_zero]

/-- C8: replacing the azimuthal angle φ by φ + 120° leaves the ss and sp
reflectivity outputs unchanged, since those polarization states depend on φ
only through sin(3φ) and cos(3φ), which are periodic with period 120°. -/
theorem C8_phi_periodicity (th ph : ℝ) (c1re c1im : ℝ → ℝ)
    (zzz zxx xxz xxx : ℕ → ℂ) :
    nrc_of_state (mkCfg th (ph + radians 120) c1re c1im zzz zxx xxz xxx) "s" "s" =
      nrc_of_state (mkCfg th ph c1re c1im zzz zxx xxz xxx) "s" "s" ∧
    nrc_of_state (mkCfg th (ph + radians 120) c1re c1im zzz zxx xxz xxx) "s" "p" =
      nrc_of_state (mkCfg th ph c1re c1im zzz zxx xxz xxx) "s" "p" := by
  have hphi : 3 * (ph + radians 120) = 3 * ph + 2 * Real.pi := by
    unfold radians
    ring
  constructor
  · rw [nrc_ss_eval, nrc_ss_eval, Option.some.injEq]
    apply afn_congr
    intro i hi
    simp only [R_at, r_factor_at, fresnel_vs_at, fresnel_sb_at, rif_constants,
      mkCfg_theta, mkCfg_phi, mkCfg_chi1re, mkCfg_chi1im, epsilon, wave_vector,
      String.reduceEq, if_true, if_false, and_self, and_true, true_and,
      false_and, and_false]
    rw [hphi, Real.sin_add_two_pi]
  · rw [nrc_sp_eval, nrc_sp_eval, Option.some.injEq]
    apply afn_congr
    intro i hi
    simp only [R_at, r_factor_at, fresnel_vs_at, fresnel_sb_at, rif_constants,
      mkCfg_theta, mkCfg_phi, mkCfg_chi1re, mkCfg_chi1im, epsilon, wave_vector,
      String.reduceEq, if_true, if_false, and_self, and_true, true_and,
      false_and, and_false]
    rw [hphi, Real.cos_add_two_pi]

/-- C9 counterexample: a table of 5 rows — a row count different from the
1200-point grid — with 3 columns each loads successfully: `load_matrix`
returns a value, it performs no row-count check. -/
theorem C9_counterexample :
    load_matrix (List.replicate 5 [0, 1, 2]) =
        Except.ok (List.replicate 5 (((1 : ℝ) : ℂ) + Complex.I * ((2 : ℝ) : ℂ))) ∧
      (List.replicate 5 ([0, 1, 2] : List ℝ)).length ≠ ENERGIES.length := by
  constructor
  · unfold load_matrix
    rw [if_pos (by decide), List.map_replicate]
    rfl
  · rw [ENERGIES_afn, length_afn, List.length_replicate]
    decide

/-- C9 amended: a row with fewer than the three required columns makes
`load_matrix` fail with a FormatError; the row count is not checked by the
load — a table whose rows all have at least three columns loads successfully,
one complex value per row, whatever its row count. -/
theorem C9_amended_load_matrix (table : List (List ℝ)) :
    ((∃ row ∈ table, row.length < 3) →
      load_matrix table = Except.error "FormatError") ∧
    ((∀ row ∈ table, 3 ≤ row.length) →
      ∃ l, load_matrix table = Except.ok l ∧ l.length = table.length) := by
  constructor
  · rintro ⟨row, hrow, hlen⟩
    unfold load_matrix
    rw [if_neg]
    intro hall
    rw [List.all_eq_true] at hall
    have hthis := hall row hrow
    rw [decide_eq_true_eq] at hthis
    omega
  · intro h
    have hcond : table.all (fun row => decide (3 ≤ row.length)) = true := by
      rw [List.all_eq_true]
      intro row hrow
      exact decide_eq_true (h row hrow)
    refine ⟨table.map fun row =>
      ((row.getD 1 0 : ℝ) : ℂ) + Complex.I * ((row.getD 2 0 : ℝ) : ℂ), ?_, ?_⟩
    · unfold load_matrix
      rw [if_pos hcond]
    · rw [List.length_map]

theorem C9_amended_witness :
    load_matrix [[(0 : ℝ)]] = Except.error "FormatError" ∧
    ∃ l, load_matrix (List.replicate 5 [(0 : ℝ), 1, 2]) = Except.ok l ∧
      l.length = (List.replicate 5 [(0 : ℝ), 1, 2]).length :=
  ⟨(C9_amended_load_matrix [[(0 : ℝ)]]).1 ⟨[(0 : ℝ)], by simp, by simp⟩,
   (C9_amended_load_matrix (List.replicate 5 [(0 : ℝ), 1, 2])).2 (by
     intro row hrow
     rw [List.eq_of_mem_replicate hrow]
     simp)⟩

end NRC
